import Mathlib

/-!
Verification of the Cerulean Labs referral/engagement bot (`bot.py`).

The SQLite tables are embedded as Lean lists of rows; each Telegram
handler that touches the database is embedded as a pure function from
the database state (plus the handler's inputs) to a new state and an
outcome describing the reply the handler would send.  Timestamps are
embedded as calendar dates (the code only ever uses the current date to
compute period keys).
-/

namespace CeruleanBot

/-- `POINTS_PER_REFERRAL = 1` (bot.py line 29). -/
def POINTS_PER_REFERRAL : Int := 1

/-- `GROUP_CHAT_ID` constant (bot.py line 27). -/
def GROUP_CHAT_ID : Int := -1002664797681

/-- A calendar date, standing in for `datetime.now()`. -/
structure Date where
  year : Nat
  month : Nat
  day : Nat
deriving Repr, DecidableEq

/-- Gregorian leap-year test. -/
def isLeap (y : Nat) : Bool :=
  (y % 4 == 0 && y % 100 != 0) || y % 400 == 0

/-- Number of days in a month of a given year. -/
def daysInMonth (y m : Nat) : Nat :=
  if m == 2 then (if isLeap y then 29 else 28)
  else if m == 4 || m == 6 || m == 9 || m == 11 then 30
  else 31

/-- Ordinal day of the year (Jan 1 ↦ 1). -/
def dayOfYear (d : Date) : Nat :=
  (List.range (d.month - 1)).foldl (fun acc i => acc + daysInMonth d.year (i + 1)) 0 + d.day

/-- ISO weekday (1 = Monday … 7 = Sunday), via Sakamoto's congruence. -/
def dayOfWeek (d : Date) : Nat :=
  let t : List Nat := [0, 3, 2, 5, 0, 3, 5, 1, 4, 6, 2, 4]
  let y := if d.month < 3 then d.year - 1 else d.year
  let s := (y + y / 4 - y / 100 + y / 400 + t.getD (d.month - 1) 0 + d.day) % 7
  (s + 6) % 7 + 1

/-- Auxiliary congruence for the number of ISO weeks in a year. -/
def isoYearCorr (y : Nat) : Nat :=
  (y + y / 4 - y / 100 + y / 400) % 7

/-- Number of ISO weeks (52 or 53) in ISO year `y`. -/
def isoWeeksInYear (y : Nat) : Nat :=
  52 + (if isoYearCorr y == 4 || isoYearCorr (y - 1) == 3 then 1 else 0)

/-- The ISO-8601 (year, week) pair of a date: the semantics of Python's
`date.isocalendar()[0]` and `[1]`.  Late-December days may belong to
week 1 of the next ISO year, and early-January days to the last week of
the previous ISO year. -/
def isoWeekPair (d : Date) : Nat × Nat :=
  let w := (dayOfYear d + 10 - dayOfWeek d) / 7
  if w == 0 then (d.year - 1, isoWeeksInYear (d.year - 1))
  else if isoWeeksInYear d.year < w then (d.year + 1, 1)
  else (d.year, w)

/-- Zero-padded two-digit rendering, the semantics of Python's `:02d`. -/
def twoDigit (n : Nat) : String :=
  if n < 10 then "0" ++ toString n else toString n

/-- `get_current_period` (bot.py lines 121–126): the week key is built
from the CALENDAR year `now.year` together with the ISO week number
`now.isocalendar()[1]`, and the month key from the calendar year and
month. -/
def get_current_period (now : Date) : String × String :=
  (toString now.year ++ "-W" ++ twoDigit (isoWeekPair now).2,
   toString now.year ++ "-M" ++ twoDigit now.month)

/-- Modelled from the spec: the week key the spec requires, composed of
the ISO year and ISO week number ("true ISO week-numbering"), kept as a
pair so that equality of keys is equality of ISO weeks. -/
def specIsoWeekKey (now : Date) : Nat × Nat := isoWeekPair now

/-- Row of the `ambassadors` table (user_id INTEGER PRIMARY KEY). -/
structure AmbassadorRow where
  user_id : Nat
  username : String
  points : Int
deriving Repr, DecidableEq

/-- Row of the `users` table (ambassador referrals; user_id PRIMARY KEY). -/
structure UserRow where
  user_id : Nat
  referrer : Nat
  status : String
deriving Repr, DecidableEq

/-- Row of the `referrals` table (contest referrals; user_id PRIMARY KEY). -/
structure ReferralRow where
  user_id : Nat
  referrer_id : Option Nat
  username : String
  status : String
  completed_at : Option Date
  period : String
deriving Repr, DecidableEq

/-- Row of the `engagement` table (UNIQUE(user_id, period)). -/
structure EngagementRow where
  user_id : Nat
  username : String
  message_count : Nat
  last_message_at : Option Date
  period : String
deriving Repr, DecidableEq

/-- Row of the `winners` archive table. -/
structure WinnerRow where
  category : String
  period : String
  user_id : Nat
  username : String
  count : Nat
  reward : String
deriving Repr, DecidableEq

/-- The whole SQLite database state. -/
structure DB where
  ambassadors : List AmbassadorRow
  users : List UserRow
  referrals : List ReferralRow
  engagement : List EngagementRow
  winners : List WinnerRow
deriving Repr, DecidableEq

/-- The freshly initialised (empty) database. -/
def emptyDB : DB := ⟨[], [], [], [], []⟩

/-- Reply sent by the `start` handler on an `amb_` deep link. -/
inductive StartAmbOutcome
  | invalidLink
  | selfReferral
  | alreadyCompleted
  | showTasks
  | registered
deriving Repr, DecidableEq

/-- Reply sent by the `start` handler on a `ref_` deep link. -/
inductive StartRefOutcome
  | selfReferral
  | alreadyCompletedThisMonth
  | showTasks
  | registered
deriving Repr, DecidableEq

/-- Reply sent by the `button` handler on `amb_done_`/`ref_done_`: the
code has exactly two reply branches ("Tasks completed!" and
"✅ Already completed!", bot.py lines 407–418 and 428–440). -/
inductive DoneOutcome
  | credited
  | alreadyCompleted
deriving Repr, DecidableEq

/-- `start` on an `amb_<rid>` link (bot.py lines 137–164): look up the
referrer among ambassadors (invalid link if absent), reject self
referral, then either report/show the existing `users` row or insert a
new pending row.  The username of the visitor is not stored. -/
def startAmb (db : DB) (uid : Nat) (rid : Nat) : DB × StartAmbOutcome :=
  match db.ambassadors.find? (fun a => a.user_id == rid) with
  | none => (db, .invalidLink)
  | some _ =>
    if rid == uid then (db, .selfReferral)
    else
      match db.users.find? (fun u => u.user_id == uid) with
      | some existing =>
        if existing.status == "completed" then (db, .alreadyCompleted)
        else (db, .showTasks)
      | none =>
        ({ db with users := db.users ++ [⟨uid, rid, "pending"⟩] }, .registered)

/-- `start` on a `ref_<rid>` link (bot.py lines 167–195): reject self
referral, look up the visitor's `referrals` row for the current month,
and otherwise `INSERT OR REPLACE` a pending row for the current month
(user_id is the primary key, so any existing row of the visitor is
replaced).  The referrer-username lookup in the code only feeds the
reply text and is omitted. -/
def startRef (db : DB) (uid : Nat) (uname : String) (rid : Nat) (now : Date) :
    DB × StartRefOutcome :=
  if rid == uid then (db, .selfReferral)
  else
    let month := (get_current_period now).2
    match db.referrals.find? (fun r => r.user_id == uid && r.period == month) with
    | some existing =>
      if existing.status == "completed" then (db, .alreadyCompletedThisMonth)
      else (db, .showTasks)
    | none =>
      ({ db with referrals :=
          db.referrals.filter (fun r => r.user_id != uid)
            ++ [⟨uid, some rid, uname, "pending", none, month⟩] }, .registered)

/-- `become_ambassador` (bot.py lines 256–291): insert a points-0 row
unless one already exists.  Returns whether a row was created. -/
def become_ambassador (db : DB) (uid : Nat) (uname : String) : DB × Bool :=
  match db.ambassadors.find? (fun a => a.user_id == uid) with
  | some _ => (db, false)
  | none => ({ db with ambassadors := db.ambassadors ++ [⟨uid, uname, 0⟩] }, true)

/-- `get_referral_link` (bot.py lines 300–347): if the user has no
`referrals` row at all, insert one with status "completed", no
referrer_id, no completed_at, for the current month. -/
def get_referral_link (db : DB) (uid : Nat) (uname : String) (now : Date) : DB :=
  match db.referrals.find? (fun r => r.user_id == uid) with
  | some _ => db
  | none =>
    let month := (get_current_period now).2
    { db with referrals :=
        db.referrals ++ [⟨uid, none, uname, "completed", none, month⟩] }

/-- `button` on `amb_done_<rid>` (bot.py lines 402–418): select the
`users` row matching (uid, rid); if it exists and is not completed, set
its status to completed and add `POINTS_PER_REFERRAL` to the referrer's
points; in every other case (row completed, or no row at all) reply
"✅ Already completed!". -/
def ambDone (db : DB) (uid rid : Nat) : DB × DoneOutcome :=
  match db.users.find? (fun u => u.user_id == uid && u.referrer == rid) with
  | some record =>
    if record.status == "completed" then (db, .alreadyCompleted)
    else
      ({ db with
          users := db.users.map (fun u =>
            if u.user_id == uid then { u with status := "completed" } else u),
          ambassadors := db.ambassadors.map (fun a =>
            if a.user_id == rid then { a with points := a.points + POINTS_PER_REFERRAL }
            else a) },
        .credited)
  | none => (db, .alreadyCompleted)

/-- `button` on `ref_done_<rid>` (bot.py lines 421–440): select the
`referrals` row matching (uid, current month); if it exists and is not
completed, mark it completed with a completion timestamp; in every
other case reply "✅ Already completed!".  The referrer id from the
callback data is only logged. -/
def refDone (db : DB) (uid rid : Nat) (now : Date) : DB × DoneOutcome :=
  let month := (get_current_period now).2
  match db.referrals.find? (fun r => r.user_id == uid && r.period == month) with
  | some record =>
    if record.status == "completed" then (db, .alreadyCompleted)
    else
      ({ db with referrals := db.referrals.map (fun r =>
          if r.user_id == uid && r.period == month then
            { r with status := "completed", completed_at := some now }
          else r) },
        .credited)
  | none => (db, .alreadyCompleted)

/-- `track_engagement` (bot.py lines 360–389): only group/supergroup
messages in the configured group count; then upsert the (user, week)
engagement row, incrementing `message_count` and refreshing username
and last-message timestamp. -/
def track_engagement (db : DB) (uid : Nat) (uname : String) (now : Date)
    (chatType : String) (chatId : Int) : DB :=
  if chatType != "group" && chatType != "supergroup" then db
  else if GROUP_CHAT_ID != 0 && chatId != GROUP_CHAT_ID then db
  else
    let week := (get_current_period now).1
    match db.engagement.find? (fun e => e.user_id == uid && e.period == week) with
    | some _ =>
      { db with engagement := db.engagement.map (fun e =>
          if e.user_id == uid && e.period == week then
            { e with message_count := e.message_count + 1,
                     last_message_at := some now,
                     username := uname }
          else e) }
    | none =>
      { db with engagement := db.engagement ++ [⟨uid, uname, 1, some now, week⟩] }

/-- `reset_weekly_engagement` (bot.py lines 768–793): copy every
engagement row of the current week into `winners` with category
"engagement" and reward "Archived", then delete those engagement
rows. -/
def reset_weekly_engagement (db : DB) (now : Date) : DB :=
  let week := (get_current_period now).1
  { db with
    winners := db.winners ++ (db.engagement.filter (fun e => e.period == week)).map
      (fun e => ⟨"engagement", e.period, e.user_id, e.username, e.message_count, "Archived"⟩),
    engagement := db.engagement.filter (fun e => e.period != week) }

/-- `confirm_reset_handler` on "confirm_reset" (bot.py lines 885–895):
delete every row of every table. -/
def reset_all (_db : DB) : DB := emptyDB

/-- Points of an ambassador, as read by `my_stats` (bot.py line 474). -/
def ambPoints (db : DB) (uid : Nat) : Option Int :=
  (db.ambassadors.find? (fun a => a.user_id == uid)).map (·.points)

/-- Status of an ambassador-referral row, as read by `start` (line 150). -/
def userStatus (db : DB) (uid : Nat) : Option String :=
  (db.users.find? (fun u => u.user_id == uid)).map (·.status)

/-- Completed contest referrals of a referrer in a month, the count
queried by `my_stats` (bot.py lines 494–498). -/
def completedReferralCount (db : DB) (rid : Nat) (month : String) : Nat :=
  (db.referrals.filter (fun r =>
    r.referrer_id == some rid && r.status == "completed" && r.period == month)).length

/-- Every state-mutating operation of the bot, for stating invariants
quantified over all operations. -/
inductive Op
  | startAmb (uid rid : Nat)
  | startRef (uid : Nat) (uname : String) (rid : Nat) (now : Date)
  | becomeAmb (uid : Nat) (uname : String)
  | getRefLink (uid : Nat) (uname : String) (now : Date)
  | ambDone (uid rid : Nat)
  | refDone (uid rid : Nat) (now : Date)
  | trackEng (uid : Nat) (uname : String) (now : Date) (chatType : String) (chatId : Int)
  | resetWeekly (now : Date)
  | resetAll
deriving Repr, DecidableEq

/-- Interpret an operation as a database transformation. -/
def applyOp (db : DB) : Op → DB
  | .startAmb uid rid => (startAmb db uid rid).1
  | .startRef uid uname rid now => (startRef db uid uname rid now).1
  | .becomeAmb uid uname => (become_ambassador db uid uname).1
  | .getRefLink uid uname now => get_referral_link db uid uname now
  | .ambDone uid rid => (ambDone db uid rid).1
  | .refDone uid rid now => (refDone db uid rid now).1
  | .trackEng uid uname now chatType chatId =>
      track_engagement db uid uname now chatType chatId
  | .resetWeekly now => reset_weekly_engagement db now
  | .resetAll => reset_all db

/-! ## Helper lemmas -/

/-- A `find?` with a stronger predicate returns `none` whenever `find?`
with a weaker predicate it implies does. -/
theorem find?_none_of_imp {α : Type} {p q : α → Bool} {l : List α}
    (himp : ∀ x, q x = true → p x = true) (h : l.find? p = none) :
    l.find? q = none := by
  rw [List.find?_eq_none] at h ⊢
  exact fun x hx hqx => h x hx (himp x hqx)

/-- State after ambassador A self-registers on an empty database. -/
def afterBecomeAmb (A : Nat) (uA : String) : DB :=
  (become_ambassador emptyDB A uA).1

/-- State after identity B then opens A's ambassador link. -/
def afterAmbRegister (A B : Nat) (uA : String) : DB :=
  (startAmb (afterBecomeAmb A uA) B A).1

/-- State after B's first completion click on A's ambassador tasks. -/
def afterAmbDone (A B : Nat) (uA : String) : DB :=
  (ambDone (afterAmbRegister A B uA) B A).1

theorem afterAmbRegister_eq (A B : Nat) (uA : String) (hAB : A ≠ B) :
    afterAmbRegister A B uA = ⟨[⟨A, uA, 0⟩], [⟨B, A, "pending"⟩], [], [], []⟩ := by
  have hab : (A == B) = false := beq_eq_false_iff_ne.mpr hAB
  simp [afterAmbRegister, afterBecomeAmb, become_ambassador, startAmb, emptyDB, hab]

theorem afterAmbDone_eq (A B : Nat) (uA : String) (hAB : A ≠ B) :
    afterAmbDone A B uA = ⟨[⟨A, uA, 1⟩], [⟨B, A, "completed"⟩], [], [], []⟩ := by
  have hpc : ("pending" == "completed") = false := by decide
  simp [afterAmbDone, afterAmbRegister_eq A B uA hAB, ambDone, hpc, POINTS_PER_REFERRAL]

/-! ## Claims -/

/-- C2: the spec requires the week key to be built from the ISO year and
ISO week number, so that dates of one ISO week share a key even across a
calendar-year boundary.  The code (bot.py line 124) instead combines the
CALENDAR year `now.year` with the ISO week number: Dec 30 2024 and
Jan 1 2025 lie in the same ISO week (2025, week 1) yet get the distinct
keys "2024-W01" and "2025-W01", while Dec 30 2024 and Jan 1 2024 lie in
different ISO weeks yet both get the key "2024-W01". -/
theorem week_key_uses_calendar_year_not_iso_year :
    specIsoWeekKey ⟨2024, 12, 30⟩ = (2025, 1) ∧
    specIsoWeekKey ⟨2025, 1, 1⟩ = (2025, 1) ∧
    (get_current_period ⟨2024, 12, 30⟩).1 = "2024-W01" ∧
    (get_current_period ⟨2025, 1, 1⟩).1 = "2025-W01" ∧
    (get_current_period ⟨2024, 12, 30⟩).1 ≠ (get_current_period ⟨2025, 1, 1⟩).1 ∧
    specIsoWeekKey ⟨2024, 1, 1⟩ = (2024, 1) ∧
    (get_current_period ⟨2024, 12, 30⟩).1 = (get_current_period ⟨2024, 1, 1⟩).1 := by
  decide

/-- C1: starting from the empty store, ambassador A registers and B opens
A's link, creating a pending relationship with A's points at 0; the
first completion click credits exactly `POINTS_PER_REFERRAL = 1` point
to A and marks B completed, and a second click with the same arguments
leaves the whole state unchanged and reports already-completed. -/
theorem amb_complete_credits_once_then_noop (A B : Nat) (uA : String) (hAB : A ≠ B) :
    (startAmb (afterBecomeAmb A uA) B A).2 = .registered ∧
    userStatus (afterAmbRegister A B uA) B = some "pending" ∧
    ambPoints (afterAmbRegister A B uA) A = some 0 ∧
    (ambDone (afterAmbRegister A B uA) B A).2 = .credited ∧
    userStatus (afterAmbDone A B uA) B = some "completed" ∧
    ambPoints (afterAmbDone A B uA) A = some 1 ∧
    ambDone (afterAmbDone A B uA) B A = (afterAmbDone A B uA, .alreadyCompleted) := by
  have hab : (A == B) = false := beq_eq_false_iff_ne.mpr hAB
  have hreg := afterAmbRegister_eq A B uA hAB
  have hdone := afterAmbDone_eq A B uA hAB
  have hpc : ("pending" == "completed") = false := by decide
  refine ⟨?_, ?_, ?_, ?_, ?_, ?_, ?_⟩
  · simp [startAmb, afterBecomeAmb, become_ambassador, emptyDB, hab]
  · simp [userStatus, hreg]
  · simp [ambPoints, hreg]
  · simp [ambDone, hreg, hpc]
  · simp [userStatus, hdone]
  · simp [ambPoints, hdone]
  · simp [ambDone, hdone]

/-- Witness for C1 at A = 1, B = 2. -/
theorem amb_complete_credits_once_then_noop_witness :
    (1 : Nat) ≠ 2 ∧
    ((startAmb (afterBecomeAmb 1 "a") 2 1).2 = .registered ∧
     userStatus (afterAmbRegister 1 2 "a") 2 = some "pending" ∧
     ambPoints (afterAmbRegister 1 2 "a") 1 = some 0 ∧
     (ambDone (afterAmbRegister 1 2 "a") 2 1).2 = .credited ∧
     userStatus (afterAmbDone 1 2 "a") 2 = some "completed" ∧
     ambPoints (afterAmbDone 1 2 "a") 1 = some 1 ∧
     ambDone (afterAmbDone 1 2 "a") 2 1 = (afterAmbDone 1 2 "a", .alreadyCompleted)) :=
  ⟨by decide, amb_complete_credits_once_then_noop 1 2 "a" (by decide)⟩

/-- C8: after the first `amb_` link visit created B's pending
relationship, a second visit with the same arguments returns the store
completely unchanged (same rows, same statuses, same row count) and a
non-error reply (the task list is shown again). -/
theorem register_referral_idempotent (A B : Nat) (uA : String) (hAB : A ≠ B) :
    (startAmb (afterBecomeAmb A uA) B A).2 = .registered ∧
    userStatus (afterAmbRegister A B uA) B = some "pending" ∧
    startAmb (afterAmbRegister A B uA) B A = (afterAmbRegister A B uA, .showTasks) := by
  have hab : (A == B) = false := beq_eq_false_iff_ne.mpr hAB
  have hreg := afterAmbRegister_eq A B uA hAB
  have hpc : ("pending" == "completed") = false := by decide
  refine ⟨?_, ?_, ?_⟩
  · simp [startAmb, afterBecomeAmb, become_ambassador, emptyDB, hab]
  · simp [userStatus, hreg]
  · rw [hreg]; simp [startAmb, hab, hpc]

/-- Witness for C8 at A = 1, B = 2. -/
theorem register_referral_idempotent_witness :
    (1 : Nat) ≠ 2 ∧
    ((startAmb (afterBecomeAmb 1 "a") 2 1).2 = .registered ∧
     userStatus (afterAmbRegister 1 2 "a") 2 = some "pending" ∧
     startAmb (afterAmbRegister 1 2 "a") 2 1 = (afterAmbRegister 1 2 "a", .showTasks)) :=
  ⟨by decide, register_referral_idempotent 1 2 "a" (by decide)⟩

/-- C7: for every store state and every link kind, a visitor opening
their own link (referred = referrer) is turned away — on the ambassador
link either as an invalid link (the visitor is not an ambassador) or as
a self-referral, on the contest link always as a self-referral — and the
state, in particular the users and referrals tables, is unchanged. -/
theorem self_referral_never_creates_row (db : DB) (uid : Nat) (uname : String) (now : Date) :
    (startAmb db uid uid).1 = db ∧
    ((startAmb db uid uid).2 = .invalidLink ∨ (startAmb db uid uid).2 = .selfReferral) ∧
    startRef db uid uname uid now = (db, .selfReferral) := by
  refine ⟨?_, ?_, ?_⟩
  · unfold startAmb
    cases h : db.ambassadors.find? (fun a => a.user_id == uid) <;> simp [h]
  · unfold startAmb
    cases h : db.ambassadors.find? (fun a => a.user_id == uid) <;> simp [h]
  · simp [startRef]

/-- C4: `reset_weekly_engagement` leaves zero engagement rows for the
current week, appends to `winners` exactly the image of the week's
engagement rows under the archiving map (category "engagement", reward
"Archived", identity/username/message count copied), and therefore grows
`winners` by exactly the number of archived rows. -/
theorem archive_and_reset_visibility (db : DB) (now : Date) :
    (reset_weekly_engagement db now).engagement.filter
        (fun e => e.period == (get_current_period now).1) = [] ∧
    (reset_weekly_engagement db now).winners =
      db.winners ++
        (db.engagement.filter (fun e => e.period == (get_current_period now).1)).map
          (fun e => ⟨"engagement", e.period, e.user_id, e.username, e.message_count,
                     "Archived"⟩) ∧
    (reset_weekly_engagement db now).winners.length =
      db.winners.length +
        (db.engagement.filter (fun e => e.period == (get_current_period now).1)).length := by
  refine ⟨?_, rfl, by simp [reset_weekly_engagement]⟩
  simp only [reset_weekly_engagement, List.filter_filter]
  have : ∀ e : EngagementRow,
      ((e.period == (get_current_period now).1) &&
       (e.period != (get_current_period now).1)) = false := by
    intro e
    cases h : e.period == (get_current_period now).1 <;> simp [bne, h]
  simp [this]

/-- A database holding January's completed contest referral of identity
2 for referrer 1, in period "2025-M01". -/
def janDB : DB :=
  ⟨[], [], [⟨2, some 1, "c", "completed", some ⟨2025, 1, 15⟩, "2025-M01"⟩], [], []⟩

/-- C3 counterexample: identity 2 completed a contest referral for
referrer 1 in "2025-M01"; re-opening referrer 1's link on Feb 3 2025
does create a pending row for "2025-M02", but because `user_id` is the
primary key and the insert is `INSERT OR REPLACE`, January's completed
row is destroyed and referrer 1's completed count for "2025-M01" drops
from 1 to 0 — the registration is not independent of the old row. -/
theorem contest_reentry_not_independent_cex :
    completedReferralCount janDB 1 "2025-M01" = 1 ∧
    (startRef janDB 2 "c" 1 ⟨2025, 2, 3⟩).2 = .registered ∧
    (startRef janDB 2 "c" 1 ⟨2025, 2, 3⟩).1.referrals =
      [⟨2, some 1, "c", "pending", none, "2025-M02"⟩] ∧
    completedReferralCount (startRef janDB 2 "c" 1 ⟨2025, 2, 3⟩).1 1 "2025-M01" = 0 := by
  decide

/-- C3 amended: when identity C has no referrals row for the current
month, opening D's link registers a new pending row for the current
month by REPLACING any previous row of C (primary-key replace
semantics): every old row of C — including a completed row of an
earlier month — is removed from the table. -/
theorem contest_reentry_replaces_previous_row (db : DB) (C D : Nat) (uname : String)
    (now : Date) (hDC : D ≠ C)
    (hnone : db.referrals.find?
        (fun r => r.user_id == C && r.period == (get_current_period now).2) = none) :
    startRef db C uname D now =
      ({ db with referrals := db.referrals.filter (fun r => r.user_id != C)
          ++ [⟨C, some D, uname, "pending", none, (get_current_period now).2⟩] },
       .registered) := by
  have hdc : (D == C) = false := beq_eq_false_iff_ne.mpr hDC
  simp [startRef, hdc, hnone]

/-- Witness for the amended C3 on the January database. -/
theorem contest_reentry_replaces_previous_row_witness :
    ((1 : Nat) ≠ 2 ∧
     janDB.referrals.find?
        (fun r => r.user_id == 2 && r.period == (get_current_period ⟨2025, 2, 3⟩).2) = none) ∧
    startRef janDB 2 "c" 1 ⟨2025, 2, 3⟩ =
      ({ janDB with referrals := janDB.referrals.filter (fun r => r.user_id != 2)
          ++ [⟨2, some 1, "c", "pending", none, (get_current_period ⟨2025, 2, 3⟩).2⟩] },
       .registered) :=
  ⟨⟨by decide, by decide⟩,
   contest_reentry_replaces_previous_row janDB 2 1 "c" ⟨2025, 2, 3⟩ (by decide) (by decide)⟩

/-- C5 counterexample: generating one's own contest link on a fresh
store inserts a referrals row whose status IS "completed" (the claim
says the created row must not have status completed). -/
theorem own_link_row_is_completed_cex :
    (get_referral_link emptyDB 1 "u" ⟨2025, 1, 15⟩).referrals =
      [⟨1, none, "u", "completed", none, "2025-M01"⟩] ∧
    ((get_referral_link emptyDB 1 "u" ⟨2025, 1, 15⟩).referrals.find?
        (fun r => r.user_id == 1)).map (fun r => r.status) = some "completed" := by
  decide

/-- On a store without a referrals row for `uid`, `get_referral_link`
appends exactly the status-"completed", referrer-less row for the
current month. -/
theorem get_referral_link_eq (db : DB) (uid : Nat) (uname : String) (now : Date)
    (hnone : db.referrals.find? (fun r => r.user_id == uid) = none) :
    get_referral_link db uid uname now =
      { db with referrals := db.referrals ++
          [⟨uid, none, uname, "completed", none, (get_current_period now).2⟩] } := by
  simp [get_referral_link, hnone]

/-- The row inserted by `get_referral_link` carries no referrer, so no
referrer's completed count changes. -/
theorem get_referral_link_counts_unchanged (db : DB) (uid : Nat) (uname : String)
    (now : Date)
    (hnone : db.referrals.find? (fun r => r.user_id == uid) = none) :
    ∀ E month, completedReferralCount (get_referral_link db uid uname now) E month =
      completedReferralCount db E month := by
  intro E month
  have hne : ∀ E : Nat, ((none : Option Nat) == some E) = false := fun _ => rfl
  rw [get_referral_link_eq db uid uname now hnone]
  simp [completedReferralCount, List.filter_append, hne]

/-- C5 amended: for every identity with no existing referrals row,
generating one's own contest link appends exactly one row — with status
"completed", no referrer_id, no completed_at, keyed to the current
month — and changes nothing else: the ambassadors table is untouched
and no referrer's completed-referral count changes, so no referrer is
credited. -/
theorem own_link_registration_no_credit (db : DB) (uid : Nat) (uname : String)
    (now : Date)
    (hnone : db.referrals.find? (fun r => r.user_id == uid) = none) :
    get_referral_link db uid uname now =
      { db with referrals := db.referrals ++
          [⟨uid, none, uname, "completed", none, (get_current_period now).2⟩] } ∧
    (get_referral_link db uid uname now).ambassadors = db.ambassadors ∧
    ∀ E month, completedReferralCount (get_referral_link db uid uname now) E month =
      completedReferralCount db E month := by
  have h1 := get_referral_link_eq db uid uname now hnone
  exact ⟨h1, by rw [h1], get_referral_link_counts_unchanged db uid uname now hnone⟩

/-- Witness for the amended C5 on the empty database. -/
theorem own_link_registration_no_credit_witness :
    (emptyDB.referrals.find? (fun r => r.user_id == 1) = none) ∧
    (get_referral_link emptyDB 1 "u" ⟨2025, 1, 15⟩ =
      { emptyDB with referrals := emptyDB.referrals ++
          [⟨1, none, "u", "completed", none, (get_current_period ⟨2025, 1, 15⟩).2⟩] } ∧
    (get_referral_link emptyDB 1 "u" ⟨2025, 1, 15⟩).ambassadors = emptyDB.ambassadors ∧
    ∀ E month, completedReferralCount (get_referral_link emptyDB 1 "u" ⟨2025, 1, 15⟩) E month =
      completedReferralCount emptyDB E month) :=
  ⟨rfl, own_link_registration_no_credit emptyDB 1 "u" ⟨2025, 1, 15⟩ rfl⟩

/-- C6 counterexample: on the empty store there is no relationship for
referred 2 and referrer 1, yet the completion click is answered with
the same already-completed reply used for completed relationships — the
code has no distinct no-such-relationship outcome (its reply `match`
has exactly two branches). -/
theorem missing_relationship_reported_already_completed_cex :
    emptyDB.users.find? (fun u => u.user_id == 2 && u.referrer == 1) = none ∧
    ambDone emptyDB 2 1 = (emptyDB, .alreadyCompleted) := by
  decide

/-- C6 amended: the ambassador completion handler distinguishes exactly
two outcomes: credited, when a matching not-yet-completed relationship
exists, and already-completed in every other case — both when the
relationship exists with status completed and when no relationship
exists at all, which are therefore reported identically. -/
theorem task_done_two_outcomes (db : DB) (uid rid : Nat) :
    (∀ r, db.users.find? (fun u => u.user_id == uid && u.referrer == rid) = some r →
        r.status ≠ "completed" → (ambDone db uid rid).2 = .credited) ∧
    (∀ r, db.users.find? (fun u => u.user_id == uid && u.referrer == rid) = some r →
        r.status = "completed" → ambDone db uid rid = (db, .alreadyCompleted)) ∧
    (db.users.find? (fun u => u.user_id == uid && u.referrer == rid) = none →
        ambDone db uid rid = (db, .alreadyCompleted)) := by
  refine ⟨?_, ?_, ?_⟩
  · intro r hr hs
    have hb : (r.status == "completed") = false := beq_eq_false_iff_ne.mpr hs
    simp [ambDone, hr, hb]
  · intro r hr hs
    simp [ambDone, hr, hs]
  · intro h
    simp [ambDone, h]

/-- Witness for the amended C6: the no-relationship case on the empty
store. -/
theorem task_done_two_outcomes_witness :
    emptyDB.users.find? (fun u => u.user_id == 3 && u.referrer == 4) = none ∧
    ambDone emptyDB 3 4 = (emptyDB, .alreadyCompleted) :=
  ⟨rfl, (task_done_two_outcomes emptyDB 3 4).2.2 rfl⟩

/-- C10: if identity C (with no referrals row yet) generates their own
contest link, then within the same month opening any other user D's
link is a complete no-op answered as already completed, the completion
click is likewise a no-op, and no referrer's completed-referral count
for any month is changed by the self-registration (the inserted row
carries no referrer), so no referrer can earn contest credit from C
that month. -/
theorem own_link_blocks_monthly_crediting (db : DB) (C D : Nat) (uc u2 : String)
    (now : Date) (hDC : D ≠ C)
    (hnone : db.referrals.find? (fun r => r.user_id == C) = none) :
    startRef (get_referral_link db C uc now) C u2 D now =
      (get_referral_link db C uc now, .alreadyCompletedThisMonth) ∧
    refDone (get_referral_link db C uc now) C D now =
      (get_referral_link db C uc now, .alreadyCompleted) ∧
    ∀ E month, completedReferralCount (get_referral_link db C uc now) E month =
      completedReferralCount db E month := by
  have hdc : (D == C) = false := beq_eq_false_iff_ne.mpr hDC
  have h1 : get_referral_link db C uc now =
      { db with referrals := db.referrals ++
          [⟨C, none, uc, "completed", none, (get_current_period now).2⟩] } :=
    get_referral_link_eq db C uc now hnone
  have hstrong : db.referrals.find?
      (fun r => r.user_id == C && r.period == (get_current_period now).2) = none := by
    refine find?_none_of_imp (fun x hx => ?_) hnone
    simp only [Bool.and_eq_true] at hx
    exact hx.1
  have hfind : (db.referrals ++
        ([⟨C, none, uc, "completed", none, (get_current_period now).2⟩] :
          List ReferralRow)).find?
      (fun r => r.user_id == C && r.period == (get_current_period now).2) =
      some ⟨C, none, uc, "completed", none, (get_current_period now).2⟩ := by
    rw [List.find?_append, hstrong]
    simp [List.find?]
  refine ⟨?_, ?_, get_referral_link_counts_unchanged db C uc now hnone⟩
  · rw [h1]
    simp [startRef, hdc, hfind]
  · rw [h1]
    simp [refDone, hfind]

/-- Witness for C10 on the empty database, C = 2, D = 1. -/
theorem own_link_blocks_monthly_crediting_witness :
    ((1 : Nat) ≠ 2 ∧ emptyDB.referrals.find? (fun r => r.user_id == 2) = none) ∧
    (startRef (get_referral_link emptyDB 2 "c" ⟨2025, 1, 15⟩) 2 "c" 1 ⟨2025, 1, 15⟩ =
      (get_referral_link emptyDB 2 "c" ⟨2025, 1, 15⟩, .alreadyCompletedThisMonth) ∧
    refDone (get_referral_link emptyDB 2 "c" ⟨2025, 1, 15⟩) 2 1 ⟨2025, 1, 15⟩ =
      (get_referral_link emptyDB 2 "c" ⟨2025, 1, 15⟩, .alreadyCompleted) ∧
    ∀ E month,
      completedReferralCount (get_referral_link emptyDB 2 "c" ⟨2025, 1, 15⟩) E month =
        completedReferralCount emptyDB E month) :=
  ⟨⟨by decide, rfl⟩,
   own_link_blocks_monthly_crediting emptyDB 2 1 "c" "c" ⟨2025, 1, 15⟩ (by decide) rfl⟩

/-- How each operation other than the full reset can touch the
ambassadors table: not at all, by appending a fresh points-0 record
(self-registration), or by adding the fixed reward to one referrer's
points (credited completion). -/
theorem applyOp_ambassadors_cases (db : DB) (op : Op) (hop : op ≠ Op.resetAll) :
    (applyOp db op).ambassadors = db.ambassadors ∨
    (∃ uid uname, (applyOp db op).ambassadors = db.ambassadors ++ [⟨uid, uname, 0⟩]) ∨
    (∃ rid, (applyOp db op).ambassadors = db.ambassadors.map (fun a =>
      if a.user_id == rid then { a with points := a.points + POINTS_PER_REFERRAL }
      else a)) := by
  cases op with
  | startAmb uid rid =>
    left
    show (startAmb db uid rid).1.ambassadors = db.ambassadors
    unfold startAmb
    repeat' split
    all_goals rfl
  | startRef uid uname rid now =>
    left
    show (startRef db uid uname rid now).1.ambassadors = db.ambassadors
    simp only [startRef]
    repeat' split
    all_goals rfl
  | becomeAmb uid uname =>
    show _ ∨ _ ∨ _
    cases h : db.ambassadors.find? (fun a => a.user_id == uid) with
    | none =>
      right; left
      exact ⟨uid, uname, by simp [applyOp, become_ambassador, h]⟩
    | some a =>
      left
      simp [applyOp, become_ambassador, h]
  | getRefLink uid uname now =>
    left
    show (get_referral_link db uid uname now).ambassadors = db.ambassadors
    simp only [get_referral_link]
    repeat' split
    all_goals rfl
  | ambDone uid rid =>
    cases h : db.users.find? (fun u => u.user_id == uid && u.referrer == rid) with
    | none =>
      left
      simp [applyOp, ambDone, h]
    | some r =>
      by_cases hs : (r.status == "completed") = true
      · left
        simp [applyOp, ambDone, h, hs]
      · right; right
        refine ⟨rid, ?_⟩
        simp [applyOp, ambDone, h, hs]
  | refDone uid rid now =>
    left
    show (refDone db uid rid now).1.ambassadors = db.ambassadors
    simp only [refDone]
    repeat' split
    all_goals rfl
  | trackEng uid uname now chatType chatId =>
    left
    show (track_engagement db uid uname now chatType chatId).ambassadors = db.ambassadors
    simp only [track_engagement]
    repeat' split
    all_goals rfl
  | resetWeekly now =>
    left
    rfl
  | resetAll => exact absurd rfl hop

/-- C9: for every state and every operation except the full reset, the
ambassadors table is only ever left alone, extended by a fresh record
with points 0, or updated by adding the fixed reward
`POINTS_PER_REFERRAL` to one referrer; consequently non-negativity of
all points is preserved and no ambassador's points ever decreases. -/
theorem ambassador_points_invariant (db : DB) (op : Op) (hop : op ≠ Op.resetAll) :
    ((applyOp db op).ambassadors = db.ambassadors ∨
     (∃ uid uname, (applyOp db op).ambassadors = db.ambassadors ++ [⟨uid, uname, 0⟩]) ∨
     (∃ rid, (applyOp db op).ambassadors = db.ambassadors.map (fun a =>
       if a.user_id == rid then { a with points := a.points + POINTS_PER_REFERRAL }
       else a))) ∧
    ((∀ a ∈ db.ambassadors, 0 ≤ a.points) →
      ∀ a ∈ (applyOp db op).ambassadors, 0 ≤ a.points) ∧
    (∀ uid p, ambPoints db uid = some p →
      ∃ q, ambPoints (applyOp db op) uid = some q ∧ p ≤ q) := by
  have hcases := applyOp_ambassadors_cases db op hop
  refine ⟨hcases, ?_, ?_⟩
  · intro hnn a ha
    rcases hcases with h | ⟨uid, uname, h⟩ | ⟨rid, h⟩
    · rw [h] at ha
      exact hnn a ha
    · rw [h] at ha
      rcases List.mem_append.mp ha with ha | ha
      · exact hnn a ha
      · rw [List.mem_singleton] at ha
        rw [ha]
    · rw [h] at ha
      rcases List.mem_map.mp ha with ⟨b, hb, rfl⟩
      by_cases hbr : (b.user_id == rid) = true
      · have := hnn b hb
        simp only [hbr, if_true, POINTS_PER_REFERRAL]
        linarith
      · simp only [hbr]
        simp only [if_false, Bool.false_eq_true]
        exact hnn b hb
  · intro uid p hp
    unfold ambPoints at hp ⊢
    rcases Option.map_eq_some'.mp hp with ⟨r, hr, hrp⟩
    rcases hcases with h | ⟨uid', uname', h⟩ | ⟨rid', h⟩
    · rw [h, hr]
      exact ⟨p, by simp [hrp], le_refl p⟩
    · rw [h, List.find?_append, hr]
      exact ⟨p, by simp [Option.or, hrp], le_refl p⟩
    · rw [h, List.find?_map]
      have hpf : ((fun a : AmbassadorRow => a.user_id == uid) ∘ (fun a =>
          if a.user_id == rid' then { a with points := a.points + POINTS_PER_REFERRAL }
          else a)) = (fun a : AmbassadorRow => a.user_id == uid) := by
        funext a
        by_cases hb : a.user_id = rid' <;> simp [hb]
      rw [hpf, hr]
      by_cases hb : r.user_id = rid'
      · refine ⟨r.points + POINTS_PER_REFERRAL, by simp [hb], ?_⟩
        rw [← hrp]
        unfold POINTS_PER_REFERRAL
        linarith
      · refine ⟨r.points, by simp [hb], le_of_eq hrp.symm⟩

/-- Witness for C9: the credited completion at referred 2, referrer 1. -/
theorem ambassador_points_invariant_witness :
    (Op.ambDone 2 1 ≠ Op.resetAll) ∧
    (((applyOp emptyDB (Op.ambDone 2 1)).ambassadors = emptyDB.ambassadors ∨
      (∃ uid uname, (applyOp emptyDB (Op.ambDone 2 1)).ambassadors =
        emptyDB.ambassadors ++ [⟨uid, uname, 0⟩]) ∨
      (∃ rid, (applyOp emptyDB (Op.ambDone 2 1)).ambassadors =
        emptyDB.ambassadors.map (fun a =>
          if a.user_id == rid then { a with points := a.points + POINTS_PER_REFERRAL }
          else a))) ∧
     ((∀ a ∈ emptyDB.ambassadors, 0 ≤ a.points) →
       ∀ a ∈ (applyOp emptyDB (Op.ambDone 2 1)).ambassadors, 0 ≤ a.points) ∧
     (∀ uid p, ambPoints emptyDB uid = some p →
       ∃ q, ambPoints (applyOp emptyDB (Op.ambDone 2 1)) uid = some q ∧ p ≤ q)) :=
  ⟨by decide, ambassador_points_invariant emptyDB (Op.ambDone 2 1) (by decide)⟩

end CeruleanBot
